import Mathlib

/-!
Shallow embedding of the record-level logic of the Freshchat and Snapchat
Marketing source connectors (`source_freshchat/source.py` and
`source_snapchat_marketing/source.py`).

Python `dict`s are modelled as insertion-ordered association lists with at most
one binding per key; Python `str` comparison (lexicographic on code points) is
modelled by an executable comparison on the character lists of Lean `String`s,
and is related to Mathlib's linear order on `String` for the algebraic proofs.
Fallible Python code (statements that can raise) is modelled with `Except`,
the raised exception rendered as a message string or a dedicated error type.
-/

/-! ## Python dict model -/

/-- Membership test `k in d` on a Python dict modelled as an association list. -/
def dictMem {α : Type} (d : List (String × α)) (k : String) : Bool :=
  d.any (fun p => p.1 == k)

/-- Lookup `d.get(k)`: the value at the first binding of `k`, if any. -/
def dictGet? {α : Type} (d : List (String × α)) (k : String) : Option α :=
  (d.find? (fun p => p.1 == k)).map Prod.snd

/-- Lookup with default `d.get(k, dflt)`. -/
def dictGetD {α : Type} (d : List (String × α)) (k : String) (dflt : α) : α :=
  (dictGet? d k).getD dflt

/-- Assignment `d[k] = v`: overwrite in place when the key exists (insertion
order kept), append otherwise — the behaviour of a Python dict. -/
def dictInsert {α : Type} (d : List (String × α)) (k : String) (v : α) : List (String × α) :=
  if dictMem d k then d.map (fun p => if p.1 == k then (p.1, v) else p)
  else d ++ [(k, v)]

/-- Dict union `{**old, **new}`: keys of `old` in their order with values
overridden by `new` where shared, then the new keys in `new`'s order. -/
def dictUnion {α : Type} (old new : List (String × α)) : List (String × α) :=
  new.foldl (fun acc p => dictInsert acc p.1 p.2) old

/-- Conversion `dict(pairs)` of a pair list (later duplicates win). -/
def pyDict {α : Type} (l : List (String × α)) : List (String × α) :=
  dictUnion [] l

/-! ## Python string comparison -/

/-- Python's `<` on strings: lexicographic comparison of the code-point
sequences, executable (unlike `String.decidableLT`, it kernel-reduces). -/
def pyStrLt (a b : String) : Bool :=
  decide (a.data < b.data)

/-- Python's two-argument `max` on strings: the second argument wins only when
it is strictly greater, matching `max(a, b)` which keeps the first maximal
value encountered. -/
def pymax (a b : String) : String :=
  if pyStrLt b a then a else b

/-! ## Snapchat incremental streams: state, filtering, slicing
(`source_snapchat_marketing/source.py`) -/

/-- Embeds `IncrementalSnapchatMarketingStream.get_updated_state` (lines
205-238).  `cursor_field` and `start_date` are the instance attributes (the
start date already rendered to its RFC-3339 string as done in `__init__`);
states and records are dicts of field name to cursor string.  An empty
`current_stream_state` dict is replaced by the configured start date, then the
returned state is the cursor-wise maximum of the latest record and the current
state. -/
def IncrementalSnapchatMarketingStream.get_updated_state
    (cursor_field start_date : String)
    (current_stream_state latest_record : List (String × String)) :
    List (String × String) :=
  let current_stream_state :=
    if current_stream_state.isEmpty then [(cursor_field, start_date)] else current_stream_state
  [(cursor_field,
    pymax (dictGetD latest_record cursor_field "") (dictGetD current_stream_state cursor_field ""))]

/-- States the fold's starting point named by claim C1: the pre-run persisted
state, or the cursor binding of the configured start date when no state is
persisted — the same substitution `get_updated_state` itself performs on an
empty state dict. -/
def initial_stream_state (cursor_field start_date : String)
    (persisted : List (String × String)) : List (String × String) :=
  if persisted.isEmpty then [(cursor_field, start_date)] else persisted

/-- Embeds the filtering in `IncrementalSnapchatMarketingStream.read_records`
(lines 240-256), applied to the records produced by the underlying HTTP read
(`super().read_records`, external CDK) for one slice.  When `stream_state` is a
non-empty dict, each record passes iff `record[cursor_field] >
stream_state.get(cursor_field)`; the error cases model the Python exceptions
`KeyError` (a record lacks the cursor field) and `TypeError` (`str` compared
with `None` when the non-empty state lacks the cursor field).  With a falsy
(empty) `stream_state` every record is yielded unfiltered. -/
def IncrementalSnapchatMarketingStream.read_records
    (cursor_field : String) (stream_state : List (String × String))
    (records : List (List (String × String))) :
    Except String (List (List (String × String))) :=
  if !stream_state.isEmpty then
    records.foldlM (fun acc record =>
      match dictGet? record cursor_field with
      | none => Except.error "KeyError"
      | some record_cursor =>
        match dictGet? stream_state cursor_field with
        | none => Except.error "TypeError: comparison of str with NoneType"
        | some state_cursor =>
          Except.ok (if pyStrLt state_cursor record_cursor then acc ++ [record] else acc)) []
  else Except.ok records

/-- Embeds `IncrementalSnapchatMarketingStream.stream_slices` (lines 192-203)
as the effect of consuming the generator, given the slice list obtained from
`get_depend_on_records`.  When that list is empty the generator logs an error
and does `yield from []` — which yields nothing but does not return — and then
still evaluates `stream_slices[-1]`, so consuming it raises `IndexError` after
zero slices were yielded.  On a non-empty list it records the `last_slice`
class attribute and yields every slice; the result pairs the yielded slices
with that recorded last slice. -/
def IncrementalSnapchatMarketingStream.stream_slices {σ : Type}
    (resolved_slices : List σ) : Except String (List σ × σ) :=
  match resolved_slices.getLast? with
  | none => Except.error "IndexError: list index out of range"
  | some last => Except.ok (resolved_slices, last)

/-- Modelled from the spec: the incremental read loop of the external CDK
driver (`AbstractSource._read_incremental`, not under `src/`), whose state
threading the docstring of `get_updated_state` (lines 225-234) relies on and
the spec describes as "periodic state-mapping snapshots for incremental
streams": slices are read in order; each slice's `read_records` receives the
stream state current when that slice starts; after each emitted record the
state is advanced with `get_updated_state`; the run's output is the
concatenation of all slices' emitted records together with the final state. -/
def incremental_read_run (cursor_field start_date : String)
    (slices : List (List (List (String × String))))
    (pre_run_state : List (String × String)) :
    Except String (List (List (String × String)) × List (String × String)) :=
  slices.foldlM (fun acc slice_records => do
    let yielded ← IncrementalSnapchatMarketingStream.read_records cursor_field acc.2 slice_records
    pure (acc.1 ++ yielded,
      yielded.foldl
        (IncrementalSnapchatMarketingStream.get_updated_state cursor_field start_date) acc.2))
    ([], pre_run_state)

/-! ## Parent-ID resolution (`get_depend_on_records`, lines 43-113) -/

/-- The module-level constant `default_stream_slices_return_value = [None]`. -/
def default_stream_slices_return_value : List (Option (List (String × String))) :=
  [none]

/-- The module-level mutable state touched by `get_depend_on_records`: the
cache `auxiliary_record_map` from parent class name to the extracted slice
dicts, plus an instrumentation counter of how many parent-stream fetches have
been performed in the run. -/
structure ResolverState where
  auxiliary_record_map : List (String × List (List (String × String)))
  fetchCount : Nat
deriving DecidableEq

/-- Embeds `get_depend_on_records`.  `depends_on_stream` is the parent stream
class name (`none` models the Python `None`); `fetched_records` is what one
full parent fetch yields, i.e. the `slice_key_names` extraction of every record
of every slice of the freshly instantiated parent stream (that whole loop is a
single "fetch", counted once in `fetchCount`).  Real slices are returned as
`some` dicts, the `[None]` sentinel as `[none]`.  Note the fetched records are
cached only when non-empty: the `if not depend_on_stream_records: return []`
branch returns before the cache assignment. -/
def get_depend_on_records (depends_on_stream : Option String)
    (fetched_records : List (List (String × String))) (st : ResolverState) :
    List (Option (List (String × String))) × ResolverState :=
  match depends_on_stream with
  | none => (default_stream_slices_return_value, st)
  | some stream_name =>
    match dictGet? st.auxiliary_record_map stream_name with
    | some cached => (cached.map some, st)
    | none =>
      let st := { st with fetchCount := st.fetchCount + 1 }
      if fetched_records.isEmpty then ([], st)
      else (fetched_records.map some,
        { st with auxiliary_record_map := dictInsert st.auxiliary_record_map stream_name fetched_records })

/-! ## Pagination -/

/-- The `pagination` member of a Freshchat response, with the two 1-indexed
integer fields read by `FreshchatStream.next_page_token`. -/
structure FreshchatPagination where
  current_page : Int
  total_pages : Int
deriving DecidableEq

/-- Embeds `FreshchatStream.next_page_token` (`source_freshchat/source.py`
lines 48-61): another page exists iff `current_page < total_pages`, and the
next-page token is `{"page": current_page + 1}`. -/
def FreshchatStream.next_page_token (pagination : FreshchatPagination) :
    Option (List (String × Int)) :=
  if pagination.current_page < pagination.total_pages then
    some [("page", pagination.current_page + 1)]
  else none

/-- Models `urllib.parse`: the first occurrence of `sep` splits the character
list in two; `none` when `sep` does not occur. -/
def breakAtChar (sep : Char) : List Char → Option (List Char × List Char)
  | [] => none
  | c :: rest =>
    if c == sep then some ([], rest)
    else (breakAtChar sep rest).map (fun p => (c :: p.1, p.2))

/-- Models splitting on every occurrence of a one-character separator, as
`str.split(sep)` does for the `&` separator of `urllib.parse.parse_qsl`. -/
def splitOnChar (sep : Char) : List Char → List (List Char)
  | [] => [[]]
  | c :: rest =>
    if c == sep then [] :: splitOnChar sep rest
    else
      match splitOnChar sep rest with
      | [] => [[c]]
      | h :: t => (c :: h) :: t

/-- Models `urllib.parse.urlparse(url).query`: the part of the URL after the
first `?`, with the fragment (everything from the first `#` on) removed
first; empty when there is no `?`. -/
def urlparse_query (url : String) : String :=
  let before_fragment :=
    match breakAtChar '#' url.data with
    | some p => p.1
    | none => url.data
  match breakAtChar '?' before_fragment with
  | some p => p.2.asString
  | none => ""

/-- Models `urllib.parse.parse_qsl` with default arguments: split the query on
`&`, keep the pieces that contain `=` with a non-empty value, and split each at
its first `=` (percent-decoding is omitted; the claims treat the values as
opaque tokens). -/
def parse_qsl (query : String) : List (String × String) :=
  (splitOnChar '&' query.data).filterMap (fun piece =>
    match breakAtChar '=' piece with
    | some p => if p.2.isEmpty then none else some (p.1.asString, p.2.asString)
    | none => none)

/-- Embeds `SnapchatMarketingStream.next_page_token` (lines 145-148).  The
argument is the response's `paging` member: `none` when the key is absent
(`.get("paging", False)` yields the falsy `False`), otherwise the paging dict,
which when empty is also falsy.  On a truthy paging dict the code indexes
`paging["next_link"]` — a `KeyError` when absent — and then
`dict(parse_qsl(urlparse(link).query))["cursor"]` — a `KeyError` when the link
has no `cursor` query parameter.  A falsy paging falls through the `if` and the
function returns `None`. -/
def SnapchatMarketingStream.next_page_token
    (paging : Option (List (String × String))) :
    Except String (Option (List (String × String))) :=
  match paging with
  | none => Except.ok none
  | some paging_dict =>
    if paging_dict.isEmpty then Except.ok none
    else
      match dictGet? paging_dict "next_link" with
      | none => Except.error "KeyError: next_link"
      | some link =>
        match dictGet? (pyDict (parse_qsl (urlparse_query link))) "cursor" with
        | none => Except.error "KeyError: cursor"
        | some cursor_value => Except.ok (some [("cursor", cursor_value)])

/-! ## AdaccountStats (lines 320-467) -/

/-- Embeds `AdaccountStats.response_root_name` (lines 334-346).  In the final
branch the source constructs `ValueError(...)` but never raises it, so for an
unsupported granularity the property returns the unassigned `root_name`, i.e.
`None`. -/
def AdaccountStats.response_root_name (granularity : String) : Option String :=
  if granularity == "TOTAL" then some "total_stats"
  else if granularity == "LIFETIME" then some "lifetime_stats"
  else if granularity == "DAY" || granularity == "HOUR" then some "timeseries_stats"
  else none

/-- Timestamps are minutes in the account's timezone; `start_of("day")` rounds
down to the enclosing midnight. -/
def startOfDay (t : Nat) : Nat := t - t % 1440

/-- Rounds a minute timestamp down to the start of its hour. -/
def startOfHour (t : Nat) : Nat := t - t % 60

/-- Embeds `AdaccountStats._get_rounded_datetime` (lines 348-366).  `datetime`
is the parsed timestamp when a non-empty datetime string was passed
(`pendulum.parse(datetime).in_timezone(timezone)`), `now` models
`pendulum.now(timezone)`.  On `LIFETIME` the result is set to `None`; on `DAY`
it is rounded to midnight; on any other granularity to the current hour. -/
def AdaccountStats.get_rounded_datetime (datetime : Option Nat) (now : Nat)
    (granularity : String) : Option Nat :=
  let result :=
    match datetime with
    | some t => t
    | none => now
  if granularity == "LIFETIME" then none
  else if granularity == "DAY" then some (startOfDay result)
  else some (startOfHour result)

/-- A query-parameter value of the stats request: a rounded timestamp or the
granularity string. -/
inductive ParamValue where
  | timestamp (t : Nat)
  | str (s : String)
deriving DecidableEq

/-- Embeds `AdaccountStats.request_params` (lines 372-397): `start_time` from
the instance's (always non-empty) start date, `end_time` from the current time,
plus the configured granularity.  Values are `none` exactly when
`_get_rounded_datetime` returned `None`. -/
def AdaccountStats.request_params (start_date : Nat) (now : Nat)
    (granularity : String) : List (String × Option ParamValue) :=
  [("start_time",
      (AdaccountStats.get_rounded_datetime (some start_date) now granularity).map ParamValue.timestamp),
   ("end_time",
      (AdaccountStats.get_rounded_datetime none now granularity).map ParamValue.timestamp),
   ("granularity", some (ParamValue.str granularity))]

/-- Modelled from the spec: the HTTP parameter encoding of the external
`requests`/CDK layer (not under `src/`), which omits query parameters whose
value is null, so null-valued `start_time`/`end_time` never reach the request
URL. -/
def encode_request_params (params : List (String × Option ParamValue)) :
    List (String × ParamValue) :=
  params.filterMap (fun p => p.2.map (fun v => (p.1, v)))

/-- One parsed breakdown-stats record, as consumed by the merge loop of
`AdaccountStats.read_records`: the four key fields, the `breakdown_stats`
sub-dict (its per-level payloads are opaque to the merge and modelled as
strings), and the remaining fields of the record, which the merge never
touches. -/
structure StatsRecord where
  id : String
  type : String
  start_time : String
  end_time : String
  breakdown_stats : List (String × String)
  extra : List (String × String)
deriving DecidableEq

/-- The merge key of lines 455-456: plain concatenation
`"".join([resp.get("id"), resp.get("type"), resp.get("start_time"), resp.get("end_time")])`. -/
def StatsRecord.merge_key (r : StatsRecord) : String :=
  r.id ++ r.type ++ r.start_time ++ r.end_time

/-- Builds the record equal to `r` with its `breakdown_stats` replaced — the
effect of the assignment `merged_response[key]["breakdown_stats"] = ...`. -/
def StatsRecord.with_breakdown_stats (r : StatsRecord)
    (b : List (String × String)) : StatsRecord :=
  { r with breakdown_stats := b }

/-- Embeds one iteration of the `for resp in parsed_responses` merge loop of
`AdaccountStats.read_records` (lines 454-465) on the insertion-ordered
`merged_response` dict: on a key hit the stored record's `breakdown_stats` is
reassigned to `{**old, **new}`; on a miss the record is inserted as-is. -/
def AdaccountStats.merge_step (merged_response : List (String × StatsRecord))
    (resp : StatsRecord) : List (String × StatsRecord) :=
  let account_stats_key := resp.merge_key
  match dictGet? merged_response account_stats_key with
  | some existing =>
    dictInsert merged_response account_stats_key
      { existing with breakdown_stats := dictUnion existing.breakdown_stats resp.breakdown_stats }
  | none => dictInsert merged_response account_stats_key resp

/-- Embeds the merge phase of `AdaccountStats.read_records` (lines 399-467):
fold the merge step over the concatenation of the parsed responses of all
breakdown-level requests (in request order), then return
`merged_response.values()` in insertion order. -/
def AdaccountStats.read_records_merge (parsed_responses : List StatsRecord) :
    List StatsRecord :=
  (parsed_responses.foldl AdaccountStats.merge_step []).map Prod.snd

/-- States, in the claim's words, the single merged output record for a key
`k`: the first parsed record with that key, its `breakdown_stats` replaced by
the left-to-right union of the `breakdown_stats` of every record with that key
(a breakdown level present in several records taking the last record's value);
`none` when no record has the key.  Used to compare the source's merge against
the specified one. -/
def merged_record_for_key (parsed_responses : List StatsRecord) (k : String) :
    Option StatsRecord :=
  match parsed_responses.filter (fun r => r.merge_key == k) with
  | [] => none
  | r :: rest =>
    some (r.with_breakdown_stats
      (rest.foldl (fun acc later => dictUnion acc later.breakdown_stats) r.breakdown_stats))

/-! ## OAuth2 refresh (lines 487-502) -/

/-- Outcome of the token-endpoint POST in
`SnapchatAdsOauth2Authenticator.refresh_access_token`: either
`requests.request` itself raised a `RequestException` (no body was parsed), or
a response arrived whose JSON body is `body` and for which
`response.raise_for_status()` raises (`status_error = true`, non-2xx) or not;
`e` renders the `RequestException` text. -/
inductive TokenRequestOutcome where
  | transport_fail (e : String)
  | response (body : List (String × String)) (status_error : Bool) (e : String)

/-- The exception raised by `refresh_access_token`: the formatted message
embedding the body's `error` and `error_description`, the raw transport error,
or a `KeyError` from indexing a missing body field. -/
inductive RefreshTokenError where
  | formatted (error error_description exc : String)
  | raw (exc : String)
  | key_error (field : String)
deriving DecidableEq

/-- Embeds `SnapchatAdsOauth2Authenticator.refresh_access_token` (lines
487-502).  On a 2xx response it returns
`(response_json["access_token"], response_json["expires_in"])` (a `KeyError`
when absent).  When a `RequestException` was raised: with a truthy parsed body
containing `"error"`, it raises the formatted exception embedding
`response_json["error"]` and `response_json["error_description"]` — the latter
indexed without a guard, hence a `KeyError` when only `"error"` is present;
otherwise it re-raises around the raw transport error. -/
def SnapchatAdsOauth2Authenticator.refresh_access_token
    (outcome : TokenRequestOutcome) : Except RefreshTokenError (String × String) :=
  match outcome with
  | .transport_fail e => Except.error (.raw e)
  | .response body status_error e =>
    if status_error then
      if !body.isEmpty && dictMem body "error" then
        match dictGet? body "error", dictGet? body "error_description" with
        | some err, some desc => Except.error (.formatted err desc e)
        | some _, none => Except.error (.key_error "error_description")
        | none, _ => Except.error (.key_error "error")
      else Except.error (.raw e)
    else
      match dictGet? body "access_token" with
      | none => Except.error (.key_error "access_token")
      | some token_value =>
        match dictGet? body "expires_in" with
        | none => Except.error (.key_error "expires_in")
        | some expires_value => Except.ok (token_value, expires_value)

/-! ## Helper lemmas: string comparison bridge -/

/-- The executable comparison agrees with Mathlib's order on `String`. -/
theorem pyStrLt_iff (a b : String) : pyStrLt a b = true ↔ a < b := by
  rw [pyStrLt, decide_eq_true_iff, String.lt_iff_toList_lt]
  rfl

/-- The executable Python `max` agrees with Mathlib's `max` on `String`. -/
theorem pymax_eq_max (a b : String) : pymax a b = max a b := by
  rw [pymax, max_def]
  rcases lt_trichotomy a b with h | h | h
  · rw [if_neg (fun hc => absurd ((pyStrLt_iff b a).mp hc) (asymm h)), if_pos h.le]
  · subst h
    simp
  · rw [if_pos ((pyStrLt_iff b a).mpr h), if_neg (not_le.mpr h)]

/-! ## Helper lemmas: the dict model -/

theorem dictMem_cons {α : Type} (p : String × α) (d : List (String × α)) (k : String) :
    dictMem (p :: d) k = ((p.1 == k) || dictMem d k) := rfl

theorem dictMem_iff {α : Type} (d : List (String × α)) (k : String) :
    dictMem d k = true ↔ k ∈ d.map Prod.fst := by
  simp [dictMem, List.any_eq_true, List.mem_map]

theorem dictGet?_eq_none_iff {α : Type} (d : List (String × α)) (k : String) :
    dictGet? d k = none ↔ k ∉ d.map Prod.fst := by
  simp [dictGet?, List.find?_eq_none, List.mem_map]
  constructor
  · intro h x hx
    exact h k x hx rfl
  · intro h a b hab hak
    exact h b (hak ▸ hab)

theorem dictMem_of_dictGet?_some {α : Type} {d : List (String × α)} {k : String} {v : α}
    (h : dictGet? d k = some v) : dictMem d k = true := by
  rw [dictMem_iff]
  by_contra hmem
  rw [← dictGet?_eq_none_iff] at hmem
  rw [h] at hmem
  exact Option.noConfusion hmem

theorem dictInsert_cons_of_ne {α : Type} (p : String × α) (d : List (String × α))
    (k : String) (v : α) (hp : (p.1 == k) = false) :
    dictInsert (p :: d) k v = p :: dictInsert d k v := by
  rw [dictInsert, dictInsert, dictMem_cons, hp, Bool.false_or]
  by_cases hd : dictMem d k = true
  · rw [if_pos hd, if_pos hd, List.map_cons, if_neg (by simp [hp])]
  · rw [if_neg hd, if_neg hd, List.cons_append]

theorem dictGet?_cons_of_ne {α : Type} (p : String × α) (d : List (String × α))
    (k : String) (hp : (p.1 == k) = false) :
    dictGet? (p :: d) k = dictGet? d k := by
  rw [dictGet?, List.find?_cons_of_neg _ (by simp [hp]), dictGet?]

theorem dictGet?_cons_of_eq {α : Type} (p : String × α) (d : List (String × α))
    (k : String) (hp : (p.1 == k) = true) :
    dictGet? (p :: d) k = some p.2 := by
  rw [dictGet?, @List.find?_cons_of_pos _ (fun q => q.1 == k) p d hp]
  rfl

theorem dictGet?_dictInsert_self {α : Type} (d : List (String × α)) (k : String) (v : α) :
    dictGet? (dictInsert d k v) k = some v := by
  induction d with
  | nil => simp [dictInsert, dictMem, dictGet?]
  | cons p d ih =>
    by_cases hp : (p.1 == k) = true
    · rw [dictInsert, if_pos (by rw [dictMem_cons, hp, Bool.true_or]), List.map_cons, if_pos hp]
      exact dictGet?_cons_of_eq _ _ k (by simpa using hp)
    · simp only [Bool.not_eq_true] at hp
      rw [dictInsert_cons_of_ne p d k v hp, dictGet?_cons_of_ne p _ k hp]
      exact ih

theorem dictGet?_dictInsert_of_ne {α : Type} (d : List (String × α)) (k : String) (v : α)
    (k' : String) (hne : k' ≠ k) :
    dictGet? (dictInsert d k v) k' = dictGet? d k' := by
  induction d with
  | nil =>
    rw [dictInsert]
    simp only [dictMem, List.any_nil, Bool.false_eq_true, if_false, List.nil_append]
    rw [dictGet?_cons_of_ne _ _ k' (by simp; exact fun h => hne h.symm)]
  | cons p d ih =>
    by_cases hp : (p.1 == k) = true
    · have hpk : p.1 = k := beq_iff_eq.mp hp
      have hpk' : (p.1 == k') = false := by
        simp [hpk]
        exact fun h => hne h.symm
      rw [dictInsert, if_pos (by rw [dictMem_cons, hp, Bool.true_or]), List.map_cons, if_pos hp]
      rw [dictGet?_cons_of_ne _ _ k' (by simp [hpk]; exact fun h => hne h.symm),
          dictGet?_cons_of_ne p d k' hpk']
      by_cases hd : dictMem d k = true
      · have := ih
        rw [dictInsert, if_pos hd] at this
        exact this
      · have hnone : ∀ q ∈ d, ¬ ((q.1 == k) = true) := by
          intro q hq hc
          exact hd (by rw [dictMem, List.any_eq_true]; exact ⟨q, hq, hc⟩)
        have hmap : d.map (fun q => if q.1 == k then (q.1, v) else q) = d := by
          conv_rhs => rw [← List.map_id d]
          apply List.map_congr_left
          intro q hq
          rw [if_neg (hnone q hq)]
          rfl
        rw [hmap]
    · simp only [Bool.not_eq_true] at hp
      rw [dictInsert_cons_of_ne p d k v hp]
      by_cases hp' : (p.1 == k') = true
      · rw [dictGet?_cons_of_eq _ _ k' hp', dictGet?_cons_of_eq p d k' hp']
      · simp only [Bool.not_eq_true] at hp'
        rw [dictGet?_cons_of_ne p _ k' hp', dictGet?_cons_of_ne p d k' hp']
        exact ih

theorem dictInsert_keys_of_mem {α : Type} (d : List (String × α)) (k : String) (v : α)
    (h : dictMem d k = true) :
    (dictInsert d k v).map Prod.fst = d.map Prod.fst := by
  rw [dictInsert, if_pos h, List.map_map]
  apply List.map_congr_left
  intro p _
  show (if p.1 == k then (p.1, v) else p).1 = p.1
  by_cases hp : (p.1 == k) = true
  · rw [if_pos hp]
  · rw [if_neg hp]

theorem dictInsert_keys_of_not_mem {α : Type} (d : List (String × α)) (k : String) (v : α)
    (h : dictMem d k = false) :
    (dictInsert d k v).map Prod.fst = d.map Prod.fst ++ [k] := by
  rw [dictInsert, if_neg (by rw [h]; exact Bool.false_ne_true)]
  simp

/-! ## C10 -/

/-- C10: for every granularity value outside TOTAL, LIFETIME, DAY and HOUR,
`AdaccountStats.response_root_name` returns `none` rather than raising: the
`ValueError` of the unsupported-granularity branch is constructed but never
raised, so an invalid granularity silently propagates `None` as the response
root name. -/
theorem C10_invalid_granularity_returns_none (granularity : String)
    (h1 : granularity ≠ "TOTAL") (h2 : granularity ≠ "LIFETIME")
    (h3 : granularity ≠ "DAY") (h4 : granularity ≠ "HOUR") :
    AdaccountStats.response_root_name granularity = none := by
  rw [AdaccountStats.response_root_name,
      if_neg (by simp [h1]), if_neg (by simp [h2]), if_neg (by simp [h3, h4])]

/-- C10 witness: the concrete unsupported granularity `"WEEK"`. -/
theorem C10_witness :
    ("WEEK" : String) ≠ "TOTAL" ∧ ("WEEK" : String) ≠ "LIFETIME"
    ∧ ("WEEK" : String) ≠ "DAY" ∧ ("WEEK" : String) ≠ "HOUR"
    ∧ AdaccountStats.response_root_name "WEEK" = none :=
  ⟨by decide, by decide, by decide, by decide,
   C10_invalid_granularity_returns_none "WEEK" (by decide) (by decide) (by decide) (by decide)⟩

/-! ## C8 -/

/-- C8: for every granularity other than LIFETIME the encoded stats request
carries non-null `start_time` and `end_time` parameters, and for LIFETIME both
are absent from the request (their dict values are `None`, which the HTTP
layer omits). -/
theorem C8_request_time_params (start_date now : Nat) (granularity : String) :
    (granularity ≠ "LIFETIME" →
      (dictGet? (encode_request_params
          (AdaccountStats.request_params start_date now granularity)) "start_time").isSome = true
      ∧ (dictGet? (encode_request_params
          (AdaccountStats.request_params start_date now granularity)) "end_time").isSome = true)
    ∧ (granularity = "LIFETIME" →
      dictGet? (encode_request_params
          (AdaccountStats.request_params start_date now granularity)) "start_time" = none
      ∧ dictGet? (encode_request_params
          (AdaccountStats.request_params start_date now granularity)) "end_time" = none) := by
  constructor
  · intro h
    by_cases hd : granularity = "DAY"
    · subst hd
      constructor <;> rfl
    · simp [AdaccountStats.request_params, AdaccountStats.get_rounded_datetime,
            encode_request_params, dictGet?, h, hd]
  · intro h
    subst h
    constructor <;> rfl

/-- C8 witness: concrete DAY and LIFETIME granularities with a start date of
minute 0 and a current time of minute 90. -/
theorem C8_witness :
    ("DAY" : String) ≠ "LIFETIME"
    ∧ ((dictGet? (encode_request_params
          (AdaccountStats.request_params 0 90 "DAY")) "start_time").isSome = true
       ∧ (dictGet? (encode_request_params
          (AdaccountStats.request_params 0 90 "DAY")) "end_time").isSome = true)
    ∧ (dictGet? (encode_request_params
          (AdaccountStats.request_params 0 90 "LIFETIME")) "start_time" = none
       ∧ dictGet? (encode_request_params
          (AdaccountStats.request_params 0 90 "LIFETIME")) "end_time" = none) :=
  ⟨by decide, (C8_request_time_params 0 90 "DAY").1 (by decide),
   (C8_request_time_params 0 90 "LIFETIME").2 rfl⟩

/-! ## C2 -/

/-- C2: the claimed policy — the persisted state stays equal to the pre-run
state for every `get_updated_state` invocation before the final slice
finishes, exactly what the function's own docstring describes and what the
first assertion of the unit test `test_get_updated_state_ad_account_stats`
expects — is violated by the code, which has no slice awareness and returns
the running maximum immediately.  At the unit test's own input (no persisted
state, start date `2021-11-01`, a record of a non-final slice with cursor
`2021-11-02T00:00:00+00:00`) the code yields the advanced state instead of the
unchanged baseline `2021-11-01T00:00:00+00:00`. -/
theorem C2_state_advances_before_final_slice :
    IncrementalSnapchatMarketingStream.get_updated_state "end_time"
        "2021-11-01T00:00:00+00:00" [] [("end_time", "2021-11-02T00:00:00+00:00")]
      = [("end_time", "2021-11-02T00:00:00+00:00")]
    ∧ IncrementalSnapchatMarketingStream.get_updated_state "end_time"
        "2021-11-01T00:00:00+00:00" [] [("end_time", "2021-11-02T00:00:00+00:00")]
      ≠ [("end_time", "2021-11-01T00:00:00+00:00")] := by
  decide

/-! ## C5 -/

/-- C5: the claimed graceful degradation — zero parent records give zero
dependent records for the run, with a log and no exception — is violated:
when `get_depend_on_records` returns the empty list, `stream_slices` logs and
yields nothing from `yield from []`, but execution falls through to
`stream_slices[-1]`, which raises `IndexError` on the empty list. -/
theorem C5_empty_parent_slices_raise :
    (get_depend_on_records (some "Adaccounts") [] ⟨[], 0⟩).1 = []
    ∧ IncrementalSnapchatMarketingStream.stream_slices
        (get_depend_on_records (some "Adaccounts") [] ⟨[], 0⟩).1
      = Except.error "IndexError: list index out of range" :=
  ⟨rfl, rfl⟩

/-! ## C6 -/

/-- C6 counterexample: when the first resolution's parent fetch yields zero
records, the function returns the empty list before the cache assignment, so a
second resolution for the same parent type performs the underlying fetch again
— two fetches within one run, refuting the claimed at-most-one fetch per
parent type. -/
theorem C6_counterexample_empty_fetch_twice :
    ((get_depend_on_records (some "Organizations") [] ⟨[], 0⟩).2).fetchCount = 1
    ∧ ((get_depend_on_records (some "Organizations") []
        ((get_depend_on_records (some "Organizations") [] ⟨[], 0⟩).2)).2).fetchCount = 2 :=
  ⟨rfl, rfl⟩

/-- C6 (amended): when the parent fetch of an uncached parent type yields a
non-empty record list, the cache is populated; every subsequent call for the
same parent type then returns a value equal to the first call's result without
performing another fetch (whatever a new fetch would have yielded), and the
first call performed exactly one fetch.  The amendment restricts the
at-most-one-fetch guarantee to parents with non-empty fetch results, because
an empty result is returned before the cache assignment. -/
theorem C6_cache_hit_after_nonempty_fetch (stream_name : String)
    (fetched fetched' : List (List (String × String))) (st : ResolverState)
    (hmiss : dictGet? st.auxiliary_record_map stream_name = none)
    (hne : fetched ≠ []) :
    (get_depend_on_records (some stream_name) fetched'
        ((get_depend_on_records (some stream_name) fetched st).2)).1
      = (get_depend_on_records (some stream_name) fetched st).1
    ∧ (get_depend_on_records (some stream_name) fetched'
        ((get_depend_on_records (some stream_name) fetched st).2)).2
      = (get_depend_on_records (some stream_name) fetched st).2
    ∧ ((get_depend_on_records (some stream_name) fetched st).2).fetchCount
      = st.fetchCount + 1 := by
  have hfe : fetched.isEmpty = false := by
    cases fetched with
    | nil => exact absurd rfl hne
    | cons a l => rfl
  have hfirst : get_depend_on_records (some stream_name) fetched st
      = (fetched.map some,
         { auxiliary_record_map := dictInsert st.auxiliary_record_map stream_name fetched,
           fetchCount := st.fetchCount + 1 }) := by
    simp only [get_depend_on_records, hmiss, hfe, Bool.false_eq_true, if_false]
  rw [hfirst]
  refine ⟨?_, ?_, rfl⟩ <;>
    simp only [get_depend_on_records, dictGet?_dictInsert_self]

/-- C6 witness: a fresh run, parent type `Organizations`, first fetch yielding
one slice dict; the second call returns the same value with no further fetch. -/
theorem C6_witness :
    dictGet? (ResolverState.mk [] 0).auxiliary_record_map "Organizations" = none
    ∧ ([[("id", "o1")]] : List (List (String × String))) ≠ []
    ∧ ((get_depend_on_records (some "Organizations") [[("id", "o2")]]
          ((get_depend_on_records (some "Organizations") [[("id", "o1")]] ⟨[], 0⟩).2)).1
        = (get_depend_on_records (some "Organizations") [[("id", "o1")]] ⟨[], 0⟩).1
      ∧ (get_depend_on_records (some "Organizations") [[("id", "o2")]]
          ((get_depend_on_records (some "Organizations") [[("id", "o1")]] ⟨[], 0⟩).2)).2
        = (get_depend_on_records (some "Organizations") [[("id", "o1")]] ⟨[], 0⟩).2
      ∧ ((get_depend_on_records (some "Organizations") [[("id", "o1")]] ⟨[], 0⟩).2).fetchCount
        = 0 + 1) :=
  ⟨rfl, by decide,
   C6_cache_hit_after_nonempty_fetch "Organizations" [[("id", "o1")]] [[("id", "o2")]]
     ⟨[], 0⟩ rfl (by decide)⟩

/-! ## C7 -/

/-- C7 counterexample: a response whose `paging` object is present and
non-empty but lacks `next_link` makes `SnapchatMarketingStream.next_page_token`
raise `KeyError` instead of returning `None`, refuting the claimed "returns
None whenever the paging object or its next_link is absent". -/
theorem C7_counterexample_missing_next_link :
    SnapchatMarketingStream.next_page_token (some [("third_party_paging", "x")])
      = Except.error "KeyError: next_link"
    ∧ SnapchatMarketingStream.next_page_token (some [("third_party_paging", "x")])
      ≠ Except.ok none :=
  ⟨rfl, fun h => Except.noConfusion h⟩

/-- C7 (amended): Freshchat pagination behaves exactly as claimed — a
next-page token `{"page": current_page + 1}` iff `current_page < total_pages`,
and `None` otherwise (in particular when they are equal).  Snapchat returns
`None` when `paging` is absent or an empty dict; on a non-empty `paging` the
token is the `cursor` query parameter of `paging["next_link"]` when the link
is present and carries one, while a missing `next_link` raises `KeyError`
rather than returning `None`. -/
theorem C7_next_page_token_behaviour (p : FreshchatPagination)
    (paging_dict : List (String × String)) (link cursor_value : String) :
    (p.current_page < p.total_pages →
      FreshchatStream.next_page_token p = some [("page", p.current_page + 1)])
    ∧ (¬ p.current_page < p.total_pages → FreshchatStream.next_page_token p = none)
    ∧ SnapchatMarketingStream.next_page_token none = Except.ok none
    ∧ SnapchatMarketingStream.next_page_token (some []) = Except.ok none
    ∧ (paging_dict.isEmpty = false → dictGet? paging_dict "next_link" = some link →
        dictGet? (pyDict (parse_qsl (urlparse_query link))) "cursor" = some cursor_value →
        SnapchatMarketingStream.next_page_token (some paging_dict)
          = Except.ok (some [("cursor", cursor_value)]))
    ∧ (paging_dict.isEmpty = false → dictGet? paging_dict "next_link" = none →
        SnapchatMarketingStream.next_page_token (some paging_dict)
          = Except.error "KeyError: next_link") := by
  refine ⟨?_, ?_, rfl, rfl, ?_, ?_⟩
  · intro h
    rw [FreshchatStream.next_page_token, if_pos h]
  · intro h
    rw [FreshchatStream.next_page_token, if_neg h]
  · intro hne hlink hcur
    simp only [SnapchatMarketingStream.next_page_token, hne, hlink, hcur,
      Bool.false_eq_true, if_false]
  · intro hne hlink
    simp only [SnapchatMarketingStream.next_page_token, hne, hlink,
      Bool.false_eq_true, if_false]

/-- C7 witness: Freshchat on page 1 of 3 and on page 3 of 3, and a Snapchat
paging dict with a real `next_link` carrying a `cursor` parameter. -/
theorem C7_witness :
    ((1 : Int) < 3
     ∧ FreshchatStream.next_page_token ⟨1, 3⟩ = some [("page", 2)])
    ∧ (¬ (3 : Int) < 3
     ∧ FreshchatStream.next_page_token ⟨3, 3⟩ = none)
    ∧ SnapchatMarketingStream.next_page_token
        (some [("next_link", "https://adsapi.snapchat.com/v1/me/organizations?cursor=abc123")])
      = Except.ok (some [("cursor", "abc123")]) :=
  ⟨⟨by decide,
    (C7_next_page_token_behaviour ⟨1, 3⟩ [] "" "").1 (by decide)⟩,
   ⟨by decide,
    (C7_next_page_token_behaviour ⟨3, 3⟩ [] "" "").2.1 (by decide)⟩,
   (C7_next_page_token_behaviour ⟨1, 3⟩
      [("next_link", "https://adsapi.snapchat.com/v1/me/organizations?cursor=abc123")]
      "https://adsapi.snapchat.com/v1/me/organizations?cursor=abc123"
      "abc123").2.2.2.2.1 rfl (by decide) (by decide)⟩

/-! ## C9 -/

/-- C9 counterexample: a failing token response whose body carries `error` but
no `error_description` makes `refresh_access_token` raise a `KeyError` — an
exception that includes neither upstream field and is not the raw transport
error — refuting the claim that the raised error includes the body's fields
whenever present and is otherwise the raw transport error. -/
theorem C9_counterexample_missing_description :
    SnapchatAdsOauth2Authenticator.refresh_access_token
        (.response [("error", "invalid_grant")] true "401 Client Error")
      = Except.error (.key_error "error_description")
    ∧ SnapchatAdsOauth2Authenticator.refresh_access_token
        (.response [("error", "invalid_grant")] true "401 Client Error")
      ≠ Except.error (.raw "401 Client Error") :=
  ⟨rfl, fun h => by
    have := Except.error.inj h
    exact RefreshTokenError.noConfusion this⟩

/-- C9 (amended): on a successful response `refresh_access_token` returns the
`(access_token, expires_in)` pair from the body; on a transport failure it
raises the formatted error embedding `error` and `error_description` when both
are present, a `KeyError` when `error` is present but `error_description` is
absent, and the raw transport error when `error` is absent; and every failure
outcome raises (the attempt is fatal, nothing is retried). -/
theorem C9_refresh_access_token_contract (body : List (String × String))
    (e token_value expires_value err desc : String) :
    (dictGet? body "access_token" = some token_value →
      dictGet? body "expires_in" = some expires_value →
      SnapchatAdsOauth2Authenticator.refresh_access_token (.response body false e)
        = Except.ok (token_value, expires_value))
    ∧ (SnapchatAdsOauth2Authenticator.refresh_access_token (.transport_fail e)
        = Except.error (.raw e))
    ∧ (dictGet? body "error" = some err → dictGet? body "error_description" = some desc →
      SnapchatAdsOauth2Authenticator.refresh_access_token (.response body true e)
        = Except.error (.formatted err desc e))
    ∧ (dictGet? body "error" = some err → dictGet? body "error_description" = none →
      SnapchatAdsOauth2Authenticator.refresh_access_token (.response body true e)
        = Except.error (.key_error "error_description"))
    ∧ (dictGet? body "error" = none →
      SnapchatAdsOauth2Authenticator.refresh_access_token (.response body true e)
        = Except.error (.raw e))
    ∧ (SnapchatAdsOauth2Authenticator.refresh_access_token (.transport_fail e)).isOk = false
    ∧ (SnapchatAdsOauth2Authenticator.refresh_access_token (.response body true e)).isOk = false := by
  have hbody_ne : ∀ v, dictGet? body "error" = some v → body.isEmpty = false := by
    intro v hv
    cases body with
    | nil => exact Option.noConfusion hv
    | cons a l => rfl
  refine ⟨?_, rfl, ?_, ?_, ?_, rfl, ?_⟩
  · intro htok hexp
    simp only [SnapchatAdsOauth2Authenticator.refresh_access_token, htok, hexp,
      Bool.false_eq_true, if_false]
  · intro herr hdesc
    have hne := hbody_ne err herr
    have hmem := dictMem_of_dictGet?_some herr
    simp only [SnapchatAdsOauth2Authenticator.refresh_access_token, herr, hdesc,
      hne, hmem, Bool.not_false, Bool.and_self, if_true]
  · intro herr hdesc
    have hne := hbody_ne err herr
    have hmem := dictMem_of_dictGet?_some herr
    simp only [SnapchatAdsOauth2Authenticator.refresh_access_token, herr, hdesc,
      hne, hmem, Bool.not_false, Bool.and_self, if_true]
  · intro herr
    have hmem : dictMem body "error" = false := by
      by_contra hc
      simp only [Bool.not_eq_false] at hc
      rw [dictMem_iff] at hc
      rw [dictGet?_eq_none_iff] at herr
      exact herr hc
    simp [SnapchatAdsOauth2Authenticator.refresh_access_token, hmem]
  · by_cases hmem : (!body.isEmpty && dictMem body "error") = true
    · simp only [SnapchatAdsOauth2Authenticator.refresh_access_token, hmem, if_true]
      cases hget : dictGet? body "error" with
      | none =>
        cases hdesc : dictGet? body "error_description" <;> rfl
      | some v =>
        cases hdesc : dictGet? body "error_description" <;> rfl
    · simp only [Bool.not_eq_true] at hmem
      simp only [SnapchatAdsOauth2Authenticator.refresh_access_token, hmem,
        Bool.false_eq_true, if_false]
      rfl

/-- C9 witness: a successful body, a transport failure, a failing body with
both fields, one with only `error`, and one with neither. -/
theorem C9_witness :
    (dictGet? [("access_token", "tok"), ("expires_in", "600")] "access_token" = some "tok"
     ∧ dictGet? [("access_token", "tok"), ("expires_in", "600")] "expires_in" = some "600"
     ∧ SnapchatAdsOauth2Authenticator.refresh_access_token
         (.response [("access_token", "tok"), ("expires_in", "600")] false "")
       = Except.ok ("tok", "600"))
    ∧ SnapchatAdsOauth2Authenticator.refresh_access_token (.transport_fail "timeout")
      = Except.error (.raw "timeout")
    ∧ SnapchatAdsOauth2Authenticator.refresh_access_token
        (.response [("error", "invalid_grant"), ("error_description", "bad token")] true "401")
      = Except.error (.formatted "invalid_grant" "bad token" "401")
    ∧ SnapchatAdsOauth2Authenticator.refresh_access_token
        (.response [] true "500")
      = Except.error (.raw "500") :=
  ⟨⟨rfl, rfl,
    (C9_refresh_access_token_contract [("access_token", "tok"), ("expires_in", "600")]
      "" "tok" "600" "" "").1 rfl rfl⟩,
   (C9_refresh_access_token_contract [] "timeout" "" "" "" "").2.1,
   (C9_refresh_access_token_contract
      [("error", "invalid_grant"), ("error_description", "bad token")]
      "401" "" "" "invalid_grant" "bad token").2.2.1 rfl rfl,
   (C9_refresh_access_token_contract [] "500" "" "" "" "").2.2.2.2.1 rfl⟩

/-! ## C3 -/

/-- Helper for C3: the record loop of `read_records`, with the state lookup
already resolved to the pre-run cursor value `sv`, appends exactly the records
whose cursor value is strictly greater than `sv`. -/
theorem read_records_loop_append (cursor_field sv : String) :
    ∀ (records : List (List (String × String))) (acc : List (List (String × String))),
    (∀ r ∈ records, (dictGet? r cursor_field).isSome = true) →
    List.foldlM (fun acc record =>
      match dictGet? record cursor_field with
      | none => (Except.error "KeyError" : Except String (List (List (String × String))))
      | some record_cursor =>
        Except.ok (if pyStrLt sv record_cursor then acc ++ [record] else acc))
      acc records
    = Except.ok (acc ++ records.filter (fun r => pyStrLt sv (dictGetD r cursor_field ""))) := by
  intro records
  induction records with
  | nil =>
    intro acc _
    simp only [List.foldlM_nil, List.filter_nil, List.append_nil]
    rfl
  | cons r rest ih =>
    intro acc hrec
    have hr : (dictGet? r cursor_field).isSome = true := hrec r (List.mem_cons_self r rest)
    obtain ⟨rv, hrv⟩ := Option.isSome_iff_exists.mp hr
    have hgetD : dictGetD r cursor_field "" = rv := by
      rw [dictGetD, hrv]
      rfl
    have hrest := fun q hq => hrec q (List.mem_cons_of_mem r hq)
    by_cases hlt : pyStrLt sv rv = true
    · simp only [List.foldlM_cons, hrv, List.filter_cons, hgetD, hlt,
        eq_self_iff_true, if_true]
      exact (ih (acc ++ [r]) hrest).trans (by rw [← List.append_cons])
    · simp only [Bool.not_eq_true] at hlt
      simp only [List.foldlM_cons, hrv, List.filter_cons, hgetD, hlt,
        Bool.false_eq_true, if_false]
      exact ih acc hrest

/-- Helper for C3: one `read_records` invocation filters against whatever
state it is passed — it yields exactly the records whose cursor value is
strictly greater than the passed state's cursor value, and yields everything
when no state is given.  During a run the driver passes the pre-run state only
until the first emitted record advances it, which is what breaks claim C3. -/
theorem read_records_filter_of_passed_state (cursor_field sv : String)
    (records : List (List (String × String)))
    (hrec : ∀ r ∈ records, (dictGet? r cursor_field).isSome = true) :
    IncrementalSnapchatMarketingStream.read_records cursor_field [(cursor_field, sv)] records
      = Except.ok (records.filter (fun r => pyStrLt sv (dictGetD r cursor_field "")))
    ∧ (∀ r, r ∈ records.filter (fun r => pyStrLt sv (dictGetD r cursor_field ""))
        ↔ r ∈ records ∧ sv < dictGetD r cursor_field "")
    ∧ IncrementalSnapchatMarketingStream.read_records cursor_field [] records
      = Except.ok records := by
  refine ⟨?_, fun r => ?_, rfl⟩
  · have hstate : dictGet? [(cursor_field, sv)] cursor_field = some sv := by
      simp [dictGet?]
    have hfun : (fun (acc : List (List (String × String))) record =>
        match dictGet? record cursor_field with
        | none => (Except.error "KeyError" : Except String (List (List (String × String))))
        | some record_cursor =>
          match dictGet? [(cursor_field, sv)] cursor_field with
          | none => Except.error "TypeError: comparison of str with NoneType"
          | some state_cursor =>
            Except.ok (if pyStrLt state_cursor record_cursor then acc ++ [record] else acc))
        = (fun acc record =>
        match dictGet? record cursor_field with
        | none => (Except.error "KeyError" : Except String (List (List (String × String))))
        | some record_cursor =>
          Except.ok (if pyStrLt sv record_cursor then acc ++ [record] else acc)) := by
      funext acc record
      cases dictGet? record cursor_field with
      | none => rfl
      | some rc => rw [hstate]
    rw [IncrementalSnapchatMarketingStream.read_records]
    simp only [List.isEmpty_cons, Bool.not_false, if_true]
    rw [hfun]
    exact (read_records_loop_append cursor_field sv records [] hrec).trans
      (by rw [List.nil_append])
  · rw [List.mem_filter]
    constructor
    · rintro ⟨hr, hlt⟩
      exact ⟨hr, (pyStrLt_iff _ _).mp hlt⟩
    · rintro ⟨hr, hlt⟩
      exact ⟨hr, (pyStrLt_iff _ _).mpr hlt⟩

/-- C3: the claim — during a run with a non-empty persisted state,
`read_records` yields exactly the records with cursor strictly greater than
the PRE-RUN state in every slice, never filtering against an in-flight running
maximum — is violated by the program: the driver threads `get_updated_state`'s
output into later slices' `read_records` calls, and since `get_updated_state`
returns the running maximum on every invocation (the C2 bug, contradicting its
own docstring "all the slices data are compared to the initial state", lines
230-233), a later-slice record lying strictly between the pre-run state and
the running maximum is suppressed.  With pre-run state
`2021-11-01T00:00:00+00:00`, a first-slice record at `2021-11-05` and a
second-slice record at `2021-11-03` — both strictly greater than the pre-run
state, so the claim requires both emitted — the run emits only the first and
finishes with the advanced state. -/
theorem C3_later_slice_record_suppressed_by_running_max :
    incremental_read_run "updated_at" "2021-01-01T00:00:00+00:00"
        [[[("updated_at", "2021-11-05T00:00:00+00:00")]],
         [[("updated_at", "2021-11-03T00:00:00+00:00")]]]
        [("updated_at", "2021-11-01T00:00:00+00:00")]
      = Except.ok ([[("updated_at", "2021-11-05T00:00:00+00:00")]],
                   [("updated_at", "2021-11-05T00:00:00+00:00")])
    ∧ pyStrLt "2021-11-01T00:00:00+00:00" "2021-11-05T00:00:00+00:00" = true
    ∧ pyStrLt "2021-11-01T00:00:00+00:00" "2021-11-03T00:00:00+00:00" = true
    ∧ ([[("updated_at", "2021-11-05T00:00:00+00:00")]] :
        List (List (String × String)))
      ≠ [[("updated_at", "2021-11-05T00:00:00+00:00")],
         [("updated_at", "2021-11-03T00:00:00+00:00")]] :=
  ⟨rfl, by decide, by decide, by decide⟩

/-! ## C1 -/

/-- Helper for C1: on a non-empty current state, `get_updated_state` is the
cursor-wise maximum step. -/
theorem get_updated_state_of_not_empty (cursor_field start_date : String)
    (s r : List (String × String)) (hs : s.isEmpty = false) :
    IncrementalSnapchatMarketingStream.get_updated_state cursor_field start_date s r
      = [(cursor_field, pymax (dictGetD r cursor_field "") (dictGetD s cursor_field ""))] := by
  rw [IncrementalSnapchatMarketingStream.get_updated_state]
  simp [hs]

/-- Helper for C1: folding `get_updated_state` from a singleton cursor binding
computes the left fold of `max` over the records' cursor values. -/
theorem foldl_get_updated_state_singleton (cursor_field start_date : String)
    (records : List (List (String × String))) :
    ∀ v : String,
    records.foldl
        (IncrementalSnapchatMarketingStream.get_updated_state cursor_field start_date)
        [(cursor_field, v)]
      = [(cursor_field,
          (records.map (fun r => dictGetD r cursor_field "")).foldl max v)] := by
  induction records with
  | nil =>
    intro v
    rfl
  | cons r rest ih =>
    intro v
    rw [List.foldl_cons,
        get_updated_state_of_not_empty cursor_field start_date [(cursor_field, v)] r rfl]
    have hv : dictGetD [(cursor_field, v)] cursor_field "" = v := by
      simp [dictGetD, dictGet?]
    rw [hv, ih, List.map_cons, List.foldl_cons, pymax_eq_max,
        max_comm (dictGetD r cursor_field "") v]

/-- Helper for C1: from any non-empty starting state, the fold of
`get_updated_state` over a non-empty record list is the singleton cursor
binding holding the fold of `max` over the cursor values. -/
theorem foldl_get_updated_state_of_not_empty (cursor_field start_date : String)
    (init : List (String × String)) (hinit : init.isEmpty = false)
    (records : List (List (String × String))) (hne : records ≠ []) :
    records.foldl
        (IncrementalSnapchatMarketingStream.get_updated_state cursor_field start_date)
        init
      = [(cursor_field,
          (records.map (fun r => dictGetD r cursor_field "")).foldl max
            (dictGetD init cursor_field ""))] := by
  cases records with
  | nil => exact absurd rfl hne
  | cons r rest =>
    rw [List.foldl_cons, get_updated_state_of_not_empty cursor_field start_date init r hinit,
        foldl_get_updated_state_singleton, List.map_cons, List.foldl_cons, pymax_eq_max,
        max_comm (dictGetD r cursor_field "") (dictGetD init cursor_field "")]

/-- Helper for C1: the claim's starting state is never the empty dict. -/
theorem initial_stream_state_not_empty (cursor_field start_date : String)
    (persisted : List (String × String)) :
    (initial_stream_state cursor_field start_date persisted).isEmpty = false := by
  rw [initial_stream_state]
  cases persisted with
  | nil => rfl
  | cons p l => rfl

/-- C1: folding `get_updated_state` over all records of all slices, starting
from the pre-run persisted state (or the start-date binding when no state is
persisted), yields a state whose cursor value is the maximum of all records'
cursor values and the pre-run baseline — expressed as the `max`-fold of the
cursor values from the baseline — and the resulting state is identical for
every processing order (permutation) of the records. -/
theorem C1_final_state_is_max_of_all_cursors (cursor_field start_date : String)
    (persisted : List (String × String))
    (records records' : List (List (String × String)))
    (hperm : records.Perm records') :
    dictGetD (records.foldl
        (IncrementalSnapchatMarketingStream.get_updated_state cursor_field start_date)
        (initial_stream_state cursor_field start_date persisted)) cursor_field ""
      = (records.map (fun r => dictGetD r cursor_field "")).foldl max
          (dictGetD (initial_stream_state cursor_field start_date persisted) cursor_field "")
    ∧ records.foldl
        (IncrementalSnapchatMarketingStream.get_updated_state cursor_field start_date)
        (initial_stream_state cursor_field start_date persisted)
      = records'.foldl
        (IncrementalSnapchatMarketingStream.get_updated_state cursor_field start_date)
        (initial_stream_state cursor_field start_date persisted) := by
  have hinit := initial_stream_state_not_empty cursor_field start_date persisted
  constructor
  · cases hrec : records with
    | nil =>
      rfl
    | cons r rest =>
      rw [foldl_get_updated_state_of_not_empty cursor_field start_date _ hinit _
            (by simp), dictGetD]
      simp [dictGet?]
  · cases hrec : records with
    | nil =>
      have : records' = [] := (hrec ▸ hperm).nil_eq.symm
      rw [this]
    | cons r rest =>
      have hne : records ≠ [] := by
        rw [hrec]
        exact List.cons_ne_nil r rest
      have hne' : records' ≠ [] := by
        intro hnil
        rw [hnil] at hperm
        exact hne hperm.eq_nil
      rw [← hrec,
          foldl_get_updated_state_of_not_empty cursor_field start_date _ hinit records hne,
          foldl_get_updated_state_of_not_empty cursor_field start_date _ hinit records' hne']
      have hfold : (records.map (fun r => dictGetD r cursor_field "")).foldl max
            (dictGetD (initial_stream_state cursor_field start_date persisted) cursor_field "")
          = (records'.map (fun r => dictGetD r cursor_field "")).foldl max
            (dictGetD (initial_stream_state cursor_field start_date persisted) cursor_field "") :=
        (hperm.map (fun r => dictGetD r cursor_field "")).foldl_eq'
          (fun x _ y _ z => by
            rw [max_assoc, max_comm x y, ← max_assoc]) _
      rw [hfold]

/-- C1 witness: the spec's example slices, whose cursor values are
`2021-07-22T10:47` (first slice) and `2021-07-07T07:40` (second slice), folded
in both orders from an empty persisted state with start date
`2021-01-01T00:00:00+00:00`: the final cursor value is the first slice's
maximum in both processing orders. -/
theorem C1_witness :
    ([[("updated_at", "2021-07-22T10:47:05.780Z")],
      [("updated_at", "2021-07-07T07:40:09.531Z")]] :
        List (List (String × String))).Perm
      [[("updated_at", "2021-07-07T07:40:09.531Z")],
       [("updated_at", "2021-07-22T10:47:05.780Z")]]
    ∧ (dictGetD ([[("updated_at", "2021-07-22T10:47:05.780Z")],
          [("updated_at", "2021-07-07T07:40:09.531Z")]].foldl
          (IncrementalSnapchatMarketingStream.get_updated_state "updated_at"
            "2021-01-01T00:00:00+00:00")
          (initial_stream_state "updated_at" "2021-01-01T00:00:00+00:00" [])) "updated_at" ""
        = ([[("updated_at", "2021-07-22T10:47:05.780Z")],
            [("updated_at", "2021-07-07T07:40:09.531Z")]].map
            (fun r => dictGetD r "updated_at" "")).foldl max
            (dictGetD (initial_stream_state "updated_at" "2021-01-01T00:00:00+00:00" [])
              "updated_at" "")
      ∧ [[("updated_at", "2021-07-22T10:47:05.780Z")],
         [("updated_at", "2021-07-07T07:40:09.531Z")]].foldl
          (IncrementalSnapchatMarketingStream.get_updated_state "updated_at"
            "2021-01-01T00:00:00+00:00")
          (initial_stream_state "updated_at" "2021-01-01T00:00:00+00:00" [])
        = [[("updated_at", "2021-07-07T07:40:09.531Z")],
           [("updated_at", "2021-07-22T10:47:05.780Z")]].foldl
          (IncrementalSnapchatMarketingStream.get_updated_state "updated_at"
            "2021-01-01T00:00:00+00:00")
          (initial_stream_state "updated_at" "2021-01-01T00:00:00+00:00" []))
    ∧ [[("updated_at", "2021-07-22T10:47:05.780Z")],
       [("updated_at", "2021-07-07T07:40:09.531Z")]].foldl
        (IncrementalSnapchatMarketingStream.get_updated_state "updated_at"
          "2021-01-01T00:00:00+00:00")
        (initial_stream_state "updated_at" "2021-01-01T00:00:00+00:00" [])
      = [("updated_at", "2021-07-22T10:47:05.780Z")] := by
  have hperm : ([[("updated_at", "2021-07-22T10:47:05.780Z")],
      [("updated_at", "2021-07-07T07:40:09.531Z")]] :
        List (List (String × String))).Perm
      [[("updated_at", "2021-07-07T07:40:09.531Z")],
       [("updated_at", "2021-07-22T10:47:05.780Z")]] :=
    List.Perm.swap _ _ _
  refine ⟨hperm,
    C1_final_state_is_max_of_all_cursors "updated_at" "2021-01-01T00:00:00+00:00" [] _ _ hperm,
    ?_⟩
  decide

/-! ## C4 -/

theorem dictGet?_append {α : Type} (d e : List (String × α)) (k : String) :
    dictGet? (d ++ e) k = (dictGet? d k).or (dictGet? e k) := by
  rw [dictGet?, List.find?_append, dictGet?, dictGet?]
  cases List.find? (fun p => p.1 == k) d <;> rfl

theorem dictMem_eq_false_of_not_mem {α : Type} {d : List (String × α)} {k : String}
    (h : k ∉ d.map Prod.fst) : dictMem d k = false := by
  cases hb : dictMem d k
  · rfl
  · exact absurd ((dictMem_iff d k).mp hb) h

theorem dictInsert_of_not_mem {α : Type} {d : List (String × α)} {k : String} (v : α)
    (h : dictMem d k = false) : dictInsert d k v = d ++ [(k, v)] := by
  rw [dictInsert, if_neg (by rw [h]; exact Bool.false_ne_true)]

/-- Helper for C4: a record with a different key does not change the specified
merged record for `k`. -/
theorem merged_record_for_key_append_ne (l : List StatsRecord) (r : StatsRecord)
    (k : String) (h : (r.merge_key == k) = false) :
    merged_record_for_key (l ++ [r]) k = merged_record_for_key l k := by
  rw [merged_record_for_key, merged_record_for_key, List.filter_append,
      show List.filter (fun q => q.merge_key == k) [r] = [] by
        simp [List.filter_cons, h],
      List.append_nil]

/-- Helper for C4: a record whose key is fresh among the previous records
becomes the merged record as-is. -/
theorem merged_record_for_key_append_self_of_nil (l : List StatsRecord) (r : StatsRecord)
    (hfil : List.filter (fun q => q.merge_key == r.merge_key) l = []) :
    merged_record_for_key (l ++ [r]) r.merge_key = some r := by
  rw [merged_record_for_key, List.filter_append, hfil, List.nil_append,
      show List.filter (fun q => q.merge_key == r.merge_key) [r] = [r] by
        simp [List.filter_cons]]
  rfl

/-- Helper for C4: a record whose key already appeared folds one more
`breakdown_stats` union into the merged record. -/
theorem merged_record_for_key_append_self_of_cons (l : List StatsRecord)
    (r r0 : StatsRecord) (rest : List StatsRecord)
    (hfil : List.filter (fun q => q.merge_key == r.merge_key) l = r0 :: rest) :
    merged_record_for_key (l ++ [r]) r.merge_key
      = some (r0.with_breakdown_stats (dictUnion
          (rest.foldl (fun acc later => dictUnion acc later.breakdown_stats)
            r0.breakdown_stats)
          r.breakdown_stats)) := by
  rw [merged_record_for_key, List.filter_append, hfil,
      show List.filter (fun q => q.merge_key == r.merge_key) [r] = [r] by
        simp [List.filter_cons],
      List.cons_append]
  simp only [List.foldl_append, List.foldl_cons, List.foldl_nil]

/-- Helper for C4: the fold of the merge step keeps exactly one entry per
distinct merge key, the keys are those of the parsed records, and the entry at
each key is exactly the merged record the claim describes. -/
theorem merge_fold_invariant (parsed_responses : List StatsRecord) :
    ((parsed_responses.foldl AdaccountStats.merge_step []).map Prod.fst).Nodup
    ∧ (∀ k, k ∈ (parsed_responses.foldl AdaccountStats.merge_step []).map Prod.fst
        ↔ k ∈ parsed_responses.map StatsRecord.merge_key)
    ∧ (∀ k, dictGet? (parsed_responses.foldl AdaccountStats.merge_step []) k
        = merged_record_for_key parsed_responses k) := by
  induction parsed_responses using List.reverseRecOn with
  | nil =>
    refine ⟨List.nodup_nil, fun k => ?_, fun k => rfl⟩
    simp
  | append_singleton l r ih =>
    obtain ⟨ih1, ih2, ih3⟩ := ih
    simp only [List.foldl_append, List.foldl_cons, List.foldl_nil] at *
    cases h : dictGet? (l.foldl AdaccountStats.merge_step []) r.merge_key with
    | none =>
      have hnotmem : r.merge_key ∉ (l.foldl AdaccountStats.merge_step []).map Prod.fst :=
        (dictGet?_eq_none_iff _ _).mp h
      have hnotkey : r.merge_key ∉ l.map StatsRecord.merge_key := fun hc =>
        hnotmem ((ih2 r.merge_key).mpr hc)
      have hmemF := dictMem_eq_false_of_not_mem hnotmem
      have hstep : AdaccountStats.merge_step (l.foldl AdaccountStats.merge_step []) r
          = l.foldl AdaccountStats.merge_step [] ++ [(r.merge_key, r)] := by
        rw [AdaccountStats.merge_step]
        simp only [h]
        exact dictInsert_of_not_mem r hmemF
      rw [hstep]
      refine ⟨?_, fun k => ?_, fun k => ?_⟩
      · rw [List.map_append]
        exact ih1.append (List.nodup_singleton _)
          (fun x hx hx' => by
            simp only [List.map_cons, List.map_nil, List.mem_singleton] at hx'
            subst hx'
            exact hnotmem hx)
      · simp only [List.map_append, List.mem_append, List.map_cons, List.map_nil,
          List.mem_singleton]
        rw [ih2 k]
      · by_cases hk : k = r.merge_key
        · subst hk
          have hfil : List.filter (fun q => q.merge_key == r.merge_key) l = [] := by
            rw [List.filter_eq_nil_iff]
            intro q hq hc
            exact hnotkey (by
              rw [show r.merge_key = q.merge_key from (beq_iff_eq.mp hc).symm]
              exact List.mem_map_of_mem StatsRecord.merge_key hq)
          rw [dictGet?_append, h, merged_record_for_key_append_self_of_nil l r hfil]
          simp [dictGet?]
        · have hne : (r.merge_key == k) = false :=
            beq_eq_false_iff_ne.mpr (Ne.symm hk)
          have hsingle : dictGet? [(r.merge_key, r)] k = none := by
            rw [dictGet?_eq_none_iff]
            simp only [List.map_cons, List.map_nil, List.mem_singleton]
            exact hk
          rw [dictGet?_append, merged_record_for_key_append_ne l r k hne, ← ih3 k,
              hsingle, Option.or_none]
    | some existing =>
      have hmem : dictMem (l.foldl AdaccountStats.merge_step []) r.merge_key = true :=
        dictMem_of_dictGet?_some h
      have hstep : AdaccountStats.merge_step (l.foldl AdaccountStats.merge_step []) r
          = dictInsert (l.foldl AdaccountStats.merge_step []) r.merge_key
              (existing.with_breakdown_stats
                (dictUnion existing.breakdown_stats r.breakdown_stats)) := by
        rw [AdaccountStats.merge_step]
        simp only [h]
        rfl
      rw [hstep]
      refine ⟨?_, fun k => ?_, fun k => ?_⟩
      · rw [dictInsert_keys_of_mem _ _ _ hmem]
        exact ih1
      · rw [dictInsert_keys_of_mem _ _ _ hmem]
        simp only [List.map_append, List.mem_append, List.map_cons, List.map_nil,
          List.mem_singleton]
        constructor
        · intro hx
          exact Or.inl ((ih2 k).mp hx)
        · rintro (hx | hx)
          · exact (ih2 k).mpr hx
          · subst hx
            exact (dictMem_iff _ _).mp hmem
      · by_cases hk : k = r.merge_key
        · subst hk
          rw [dictGet?_dictInsert_self]
          have hmerged := ih3 r.merge_key
          rw [h, merged_record_for_key] at hmerged
          cases hfil : List.filter (fun q => q.merge_key == r.merge_key) l with
          | nil =>
            rw [hfil] at hmerged
            exact Option.noConfusion hmerged
          | cons r0 rest =>
            rw [hfil] at hmerged
            have hex : existing = r0.with_breakdown_stats
                (rest.foldl (fun acc later => dictUnion acc later.breakdown_stats)
                  r0.breakdown_stats) := Option.some.inj hmerged
            rw [merged_record_for_key_append_self_of_cons l r r0 rest hfil, hex]
            rfl
        · have hne : (r.merge_key == k) = false :=
            beq_eq_false_iff_ne.mpr (Ne.symm hk)
          rw [dictGet?_dictInsert_of_ne _ r.merge_key _ k hk, ih3 k,
              merged_record_for_key_append_ne l r k hne]

/-- Helper for C4: the dict union `{**old, **new}` gives precedence to the
later operand — for a `new` dict without duplicate keys, a lookup returns the
`new` value when the key is present there and the `old` value otherwise. -/
theorem dictGet?_dictUnion {α : Type} :
    ∀ (latest old : List (String × α)) (k : String), (latest.map Prod.fst).Nodup →
    dictGet? (dictUnion old latest) k = (dictGet? latest k).or (dictGet? old k) := by
  intro latest
  induction latest with
  | nil =>
    intro old k _
    rfl
  | cons p rest ih =>
    intro old k hnd
    have hp1 : p.1 ∉ rest.map Prod.fst := (List.nodup_cons.mp hnd).1
    have hnd' := (List.nodup_cons.mp hnd).2
    rw [show dictUnion old (p :: rest) = dictUnion (dictInsert old p.1 p.2) rest from rfl,
        ih _ k hnd']
    by_cases hk : k = p.1
    · subst hk
      rw [(dictGet?_eq_none_iff rest p.1).mpr hp1, dictGet?_dictInsert_self,
          dictGet?_cons_of_eq p rest p.1 (by simp)]
      rfl
    · rw [dictGet?_dictInsert_of_ne _ p.1 _ k hk,
          dictGet?_cons_of_ne p rest k (beq_eq_false_iff_ne.mpr (Ne.symm hk))]

/-- C4: the Breakdown Stats Reader's merge produces exactly one output record
per distinct key `id ++ type ++ start_time ++ end_time` (the merged map's key
list has no duplicates and carries exactly the parsed records' keys); the
record stored at each key is the first parsed record with that key with its
`breakdown_stats` replaced by the left-to-right union of all same-key records'
`breakdown_stats`, a fresh key inserting its record as-is; the returned
records are the merged map's values; and the union gives a breakdown-level
key present in both operands the later record's value. -/
theorem C4_merge_by_concatenated_key (parsed_responses : List StatsRecord) :
    ((parsed_responses.foldl AdaccountStats.merge_step []).map Prod.fst).Nodup
    ∧ (∀ k, k ∈ (parsed_responses.foldl AdaccountStats.merge_step []).map Prod.fst
        ↔ k ∈ parsed_responses.map StatsRecord.merge_key)
    ∧ (∀ k, dictGet? (parsed_responses.foldl AdaccountStats.merge_step []) k
        = merged_record_for_key parsed_responses k)
    ∧ AdaccountStats.read_records_merge parsed_responses
      = (parsed_responses.foldl AdaccountStats.merge_step []).map Prod.snd
    ∧ (∀ (old latest : List (String × String)) (k : String), (latest.map Prod.fst).Nodup →
        dictGet? (dictUnion old latest) k = (dictGet? latest k).or (dictGet? old k)) :=
  ⟨(merge_fold_invariant parsed_responses).1,
   (merge_fold_invariant parsed_responses).2.1,
   (merge_fold_invariant parsed_responses).2.2,
   rfl,
   fun old latest k hnd => dictGet?_dictUnion latest old k hnd⟩

/-- C4 witness: two parsed records sharing the key `id1AD_ACCOUNTs1e1` with
different breakdown levels plus one record with a fresh key; the merged map
has distinct keys, the shared key's record is as specified, and the union
lookup prefers the later operand. -/
theorem C4_witness :
    (([(⟨"id1", "AD_ACCOUNT", "s1", "e1", [("campaign", "p1")], [("k", "v")]⟩ : StatsRecord),
       ⟨"id1", "AD_ACCOUNT", "s1", "e1", [("campaign", "p2"), ("ad", "p3")], [("k", "w")]⟩,
       ⟨"id2", "AD_ACCOUNT", "s1", "e1", [("campaign", "p4")], []⟩].foldl
        AdaccountStats.merge_step []).map Prod.fst).Nodup
    ∧ ("id1AD_ACCOUNTs1e1" ∈
        ([(⟨"id1", "AD_ACCOUNT", "s1", "e1", [("campaign", "p1")], [("k", "v")]⟩ : StatsRecord),
          ⟨"id1", "AD_ACCOUNT", "s1", "e1", [("campaign", "p2"), ("ad", "p3")], [("k", "w")]⟩,
          ⟨"id2", "AD_ACCOUNT", "s1", "e1", [("campaign", "p4")], []⟩].foldl
           AdaccountStats.merge_step []).map Prod.fst
       ↔ "id1AD_ACCOUNTs1e1" ∈
        [(⟨"id1", "AD_ACCOUNT", "s1", "e1", [("campaign", "p1")], [("k", "v")]⟩ : StatsRecord),
         ⟨"id1", "AD_ACCOUNT", "s1", "e1", [("campaign", "p2"), ("ad", "p3")], [("k", "w")]⟩,
         ⟨"id2", "AD_ACCOUNT", "s1", "e1", [("campaign", "p4")], []⟩].map StatsRecord.merge_key)
    ∧ dictGet?
        ([(⟨"id1", "AD_ACCOUNT", "s1", "e1", [("campaign", "p1")], [("k", "v")]⟩ : StatsRecord),
          ⟨"id1", "AD_ACCOUNT", "s1", "e1", [("campaign", "p2"), ("ad", "p3")], [("k", "w")]⟩,
          ⟨"id2", "AD_ACCOUNT", "s1", "e1", [("campaign", "p4")], []⟩].foldl
           AdaccountStats.merge_step []) "id1AD_ACCOUNTs1e1"
      = merged_record_for_key
          [(⟨"id1", "AD_ACCOUNT", "s1", "e1", [("campaign", "p1")], [("k", "v")]⟩ : StatsRecord),
           ⟨"id1", "AD_ACCOUNT", "s1", "e1", [("campaign", "p2"), ("ad", "p3")], [("k", "w")]⟩,
           ⟨"id2", "AD_ACCOUNT", "s1", "e1", [("campaign", "p4")], []⟩] "id1AD_ACCOUNTs1e1"
    ∧ merged_record_for_key
          [(⟨"id1", "AD_ACCOUNT", "s1", "e1", [("campaign", "p1")], [("k", "v")]⟩ : StatsRecord),
           ⟨"id1", "AD_ACCOUNT", "s1", "e1", [("campaign", "p2"), ("ad", "p3")], [("k", "w")]⟩,
           ⟨"id2", "AD_ACCOUNT", "s1", "e1", [("campaign", "p4")], []⟩] "id1AD_ACCOUNTs1e1"
      = some ⟨"id1", "AD_ACCOUNT", "s1", "e1", [("campaign", "p2"), ("ad", "p3")], [("k", "v")]⟩
    ∧ ((([("campaign", "p2"), ("ad", "p3")] : List (String × String)).map Prod.fst).Nodup
       ∧ dictGet? (dictUnion [("campaign", "p1")] [("campaign", "p2"), ("ad", "p3")]) "campaign"
         = (dictGet? ([("campaign", "p2"), ("ad", "p3")] : List (String × String)) "campaign").or
             (dictGet? ([("campaign", "p1")] : List (String × String)) "campaign")) :=
  ⟨(C4_merge_by_concatenated_key _).1,
   (C4_merge_by_concatenated_key _).2.1 _,
   (C4_merge_by_concatenated_key _).2.2.1 _,
   by decide,
   by decide,
   (C4_merge_by_concatenated_key
      [⟨"id1", "AD_ACCOUNT", "s1", "e1", [("campaign", "p1")], [("k", "v")]⟩,
       ⟨"id1", "AD_ACCOUNT", "s1", "e1", [("campaign", "p2"), ("ad", "p3")], [("k", "w")]⟩,
       ⟨"id2", "AD_ACCOUNT", "s1", "e1", [("campaign", "p4")], []⟩]).2.2.2.2
     [("campaign", "p1")] [("campaign", "p2"), ("ad", "p3")] "campaign" (by decide)⟩
